import Mathlib

/-!
# Verification of the CyberpunkRAG retrieval pipeline

Shallow embedding of the retrieval-and-ranking core of `search_bot.py`
(class `CyberpunkBot`): intent classification, query entity extraction,
per-corpus load, FAISS-backed candidate search, ranking, and the
`ask_rag` entry point.  Python floats are modelled as exact rationals,
Python dicts as `Option`-valued functions, and exceptions as `Except`.
-/

namespace SearchBot

/-! ## String utilities (Python `str.lower` and `in`) -/

/-- ASCII lowercasing of a string, modelling Python `str.lower()` on the
ASCII text handled by the bot (per-character lowering). -/
def lower (s : String) : String := ⟨s.data.map Char.toLower⟩

/-- `startsW pat s` holds when `pat` is an initial segment of `s`. -/
def startsW : List Char → List Char → Bool
  | [], _ => true
  | _ :: _, [] => false
  | p :: ps, c :: cs => (p == c) && startsW ps cs

/-- `containsSub pat s` models Python substring membership `pat in s`
(contiguous occurrence of `pat` anywhere in `s`). -/
def containsSub (pat : List Char) : List Char → Bool
  | [] => startsW pat []
  | c :: t => startsW pat (c :: t) || containsSub pat t

/-- Specification-level statement that `pat` occurs contiguously in `s`. -/
def SubOf (pat s : List Char) : Prop := ∃ pre post, s = pre ++ pat ++ post

/-! ## Data model (search_bot.py lines 70-121) -/

/-- `TOP_K_RETRIEVAL = 7` (search_bot.py line 71). -/
def TOP_K_RETRIEVAL : Nat := 7

/-- `BOOST_VALUE = 0.2` (search_bot.py line 72); defined in the source but
never used by `search_and_rank`. -/
def BOOST_VALUE : ℚ := 2 / 10

/-- `NER_BOOST_PER_MATCH = 0.05` (search_bot.py line 73); defined in the
source but never used by `search_and_rank`. -/
def NER_BOOST_PER_MATCH : ℚ := 5 / 100

/-- `CyberpunkBot.classify_intent` (search_bot.py lines 160-168): keyword
routing over the lowercased query with fixed precedence
timeline → person → location → general.  The Python local
`q = q.lower()` is inlined as `lower q`. -/
def classify_intent (q : String) : String :=
  if ["when", "year", "timeline"].any (fun w => containsSub w.toList (lower q).toList) then
    "timeline"
  else if ["who", "person"].any (fun w => containsSub w.toList (lower q).toList) then
    "person"
  else if ["where", "location"].any (fun w => containsSub w.toList (lower q).toList) then
    "location"
  else
    "general"

/-- Specification-level reading of the code's `any(w in q for w in ws)`:
some keyword of `ws` occurs as a substring of the lowercased query. -/
def hasKeyword (q : String) (ws : List String) : Prop :=
  ∃ w ∈ ws, SubOf w.toList (lower q).toList

/-- Abstract spaCy pipeline: applying it to a text yields entity mentions
(`doc.ents`, here just their surface texts). -/
structure NLP where
  ents : String → List String

/-- One record of `metadata[name]["documents"]`: the fields read by
`search_and_rank` are `"title"` and `"summary"`. -/
structure Doc where
  title : String
  summary : String
deriving DecidableEq

/-- `metadata[name]`, the unpickled per-corpus metadata. -/
structure Meta where
  documents : List Doc
deriving DecidableEq

/-- Abstract FAISS index.  `search e k` returns the row of `k` result slots
`(distance, position)` for one query embedding; FAISS always returns exactly
`k` slots per query, padding with position `-1` when fewer vectors exist. -/
structure FaissIndex where
  search : List ℚ → Nat → List (ℚ × Int)
  search_length : ∀ e k, (search e k).length = k

/-- The langchain `Document` as constructed in `search_and_rank`:
`page_content = summary`, metadata `title` and `score`. -/
structure RankedDoc where
  page_content : String
  title : String
  score : ℚ
deriving DecidableEq

/-- Abstract `rag_chain`: `stream` consumes the context documents and the
query and yields response chunks. -/
structure Chain where
  stream : List RankedDoc → String → List String

/-- Return value of `ask_rag`: either the canned fallback string or the
LLM response stream. -/
inductive Answer where
  | fallback (msg : String)
  | stream (chunks : List String)
deriving DecidableEq

/-- `CyberpunkBot` state after `__init__` (search_bot.py lines 79-121).
Python dicts (`self.indexes`, `self.metadata`, `self.type_map`,
`self.ner_entities`) are `Option`-valued functions; attributes that may be
`None` after a swallowed load failure are `Option`.  `type_map` and
`ner_entities` are loaded by `__init__` but never consulted by the query
path. -/
structure BotState where
  encode : String → List ℚ
  nlp : Option NLP
  indexes : String → Option FaissIndex
  metadata : String → Option Meta
  type_map : String → Option String
  ner_entities : String → Option (List String)
  rag_chain : Option Chain

/-- One iteration of the corpus-loading loop in `__init__` (lines 93-103):
`self.indexes[name]` is assigned from `faiss.read_index` before the metadata
pickle is opened, and any exception aborts the rest of the `try` body and is
swallowed by `except Exception: pass`.  So a failing index read installs
neither half, while a metadata failure after a successful index read leaves
the index installed with no metadata.  No length check is performed. -/
def loadCorpus (readIndex : Option FaissIndex) (loadMeta : Option Meta) :
    Option FaissIndex × Option Meta :=
  match readIndex with
  | none => (none, none)
  | some i => (some i, loadMeta)

/-- `CyberpunkBot.extract_query_entities` (search_bot.py lines 170-174). -/
def extract_query_entities (nlp : Option NLP) (q : String) : Finset String :=
  match nlp with
  | none => ∅
  | some m => ((m.ents q).map lower).toFinset

/-- Python list indexing `l[i]`: negative indices count from the end,
out-of-range access raises (`none`). -/
def pyIndex (l : List α) (i : Int) : Option α :=
  let j : Int := if i < 0 then i + l.length else i
  if h : 0 ≤ j ∧ j.toNat < l.length then some (l.get ⟨j.toNat, h.2⟩) else none

/-- The dict access `self.metadata[index_name]`: KeyError when absent. -/
def lookupMeta : Option Meta → Except String Meta
  | none => .error "KeyError"
  | some m => .ok m

/-- The access `...["documents"][idx]`: IndexError when out of range. -/
def getDoc (meta : Meta) (i : Int) : Except String Doc :=
  match pyIndex meta.documents i with
  | none => .error "IndexError"
  | some d => .ok d

/-- The candidate-collection loop of `search_and_rank` (lines 184-195): walk
the `k` result slots in order, silently skip sentinel position `-1`, and only
for surviving slots read `self.metadata[index_name]` (KeyError if the key is
absent) and `["documents"][idx]` (IndexError if out of range); exceptions
propagate out. -/
def collectResults (metaOpt : Option Meta) : List (ℚ × Int) → Except String (List RankedDoc)
  | [] => .ok []
  | p :: rest =>
    if p.2 = -1 then collectResults metaOpt rest
    else
      (lookupMeta metaOpt).bind fun meta =>
        (getDoc meta p.2).bind fun doc =>
          (collectResults metaOpt rest).map fun tail =>
            { page_content := doc.summary, title := doc.title, score := p.1 } :: tail

/-- The key relation of `results.sort(key=lambda d: d.metadata["score"])`. -/
def scoreLE (a b : RankedDoc) : Prop := a.score ≤ b.score

instance : DecidableRel scoreLE :=
  fun a b => inferInstanceAs (Decidable (a.score ≤ b.score))

instance : IsTotal RankedDoc scoreLE := ⟨fun a b => le_total a.score b.score⟩

instance : IsTrans RankedDoc scoreLE := ⟨fun _ _ _ h₁ h₂ => le_trans h₁ h₂⟩

/-- `results.sort(key=lambda d: d.metadata["score"])` (line 197): Python's
`list.sort` is an ascending stable sort; a stable sort's output is uniquely
determined by the key order, embedded here as insertion sort with `≤` on the
score. -/
def pySortByScore (l : List RankedDoc) : List RankedDoc := List.insertionSort scoreLE l

/-- `CyberpunkBot.search_and_rank` (search_bot.py lines 176-198): an absent
index key returns `[]` at once; otherwise the FAISS row is collected, sorted
ascending by score and truncated to the first 4 (`results[:4]`); exceptions
from the loop propagate (`Except.map`). -/
def search_and_rank (s : BotState) (query index_name : String) :
    Except String (List RankedDoc) :=
  match s.indexes index_name with
  | none => .ok []
  | some index =>
    (collectResults (s.metadata index_name)
        (index.search (s.encode query) TOP_K_RETRIEVAL)).map
      fun results => (pySortByScore results).take 4

/-- `CyberpunkBot.ask_rag` (search_bot.py lines 200-210): the corpus name is
hardcoded to `"lore"`; on an empty candidate list the canned fallback is
returned before `rag_chain` is ever touched. -/
def ask_rag (s : BotState) (query : String) : Except String (Answer × List String) :=
  (search_and_rank s query "lore").bind fun docs =>
    if docs.isEmpty then .ok (.fallback "Got nothing on that, choomba.", [])
    else
      match s.rag_chain with
      | none => .error "AttributeError"
      | some ch => .ok (.stream (ch.stream docs query), docs.map (fun d => d.title))

/-- `search_and_rank` in state-passing form: the method body performs no
attribute writes, so the state component is returned unchanged. -/
def search_and_rankS (query index_name : String) (s : BotState) :
    Except String (List RankedDoc) × BotState :=
  (search_and_rank s query index_name, s)

/-- `ask_rag` in state-passing form (no attribute writes). -/
def ask_ragS (query : String) (s : BotState) :
    Except String (Answer × List String) × BotState :=
  (ask_rag s query, s)

/-- Modelled from the spec (§4.4 item 4) — this fusion formula is absent from
the code: `final_score = raw_distance − (TYPE_BOOST if type_match else 0)
− ENTITY_BOOST_PER_MATCH × entity_overlap` with the reference constants. -/
def specFinalScore (raw : ℚ) (type_match : Bool) (entity_overlap : Nat) : ℚ :=
  raw - (if type_match then BOOST_VALUE else 0) - NER_BOOST_PER_MATCH * entity_overlap

/-- The positions of the result slots not holding the sentinel `-1`. -/
def validSlots (rows : List (ℚ × Int)) : List Int :=
  (rows.map Prod.snd).filter (fun j => decide (j ≠ -1))

/-! ## Concrete snapshots used as witnesses -/

instance {ε α : Type} [DecidableEq ε] [DecidableEq α] : DecidableEq (Except ε α) :=
  fun a b =>
    match a, b with
    | .ok x, .ok y =>
      if h : x = y then .isTrue (by rw [h]) else .isFalse (fun hc => h (Except.ok.inj hc))
    | .error e, .error f =>
      if h : e = f then .isTrue (by rw [h]) else .isFalse (fun hc => h (Except.error.inj hc))
    | .ok _, .error _ => .isFalse (fun hc => Except.noConfusion hc)
    | .error _, .ok _ => .isFalse (fun hc => Except.noConfusion hc)

/-- A FAISS index whose result row for any query lists slot `i` as `f i`;
the FAISS shape guarantee (`k` slots per row) holds by construction. -/
def mkIndex (f : Nat → ℚ × Int) : FaissIndex where
  search := fun _ k => (List.range k).map f
  search_length := fun _ k => by simp

/-- A one-vector lore index: first slot hits document 0 at distance 1/2,
remaining slots are `-1` padding. -/
def loreIdx1 : FaissIndex := mkIndex (fun i => if i = 0 then (1/2, 0) else (0, -1))

def loreMeta1 : Meta := ⟨[⟨"Johnny Silverhand", "A rockerboy legend of Night City."⟩]⟩

/-- The lore document of `loreMeta1` as `search_and_rank` surfaces it. -/
def rd1 : RankedDoc :=
  { page_content := "A rockerboy legend of Night City.", title := "Johnny Silverhand",
    score := 1/2 }

/-- A one-vector timeline index: document 0 at distance 3/10. -/
def timeIdx1 : FaissIndex := mkIndex (fun i => if i = 0 then (3/10, 0) else (0, -1))

def timeMeta1 : Meta := ⟨[⟨"Fourth Corporate War", "Began in 2021."⟩]⟩

/-- A two-vector index paired below with a one-record store: positions 0 and
1 are returned although only document 0 exists. -/
def mismIdx : FaissIndex :=
  mkIndex (fun i => if i = 0 then (1/2, 0) else if i = 1 then (3/5, 1) else (0, -1))

def nlp1 : NLP := ⟨fun _ => ["Johnny Silverhand"]⟩

def chain1 : Chain := ⟨fun _ _ => []⟩

def bot1 : BotState where
  encode := fun _ => []
  nlp := some nlp1
  indexes := fun n => if n = "lore" then some loreIdx1 else none
  metadata := fun n => if n = "lore" then some loreMeta1 else none
  type_map := fun t => if t = "Johnny Silverhand" then some "character" else none
  ner_entities := fun t => if t = "Johnny Silverhand" then some ["johnny silverhand"] else none
  rag_chain := some chain1

/-- Same snapshot as `bot1` except the NER model failed to load. -/
def bot1b : BotState := { bot1 with nlp := none }

/-- Snapshot with both a lore and a timeline corpus holding distinct
documents. -/
def bot2 : BotState where
  encode := fun _ => []
  nlp := none
  indexes := fun n =>
    if n = "lore" then some loreIdx1 else if n = "timeline" then some timeIdx1 else none
  metadata := fun n =>
    if n = "lore" then some loreMeta1 else if n = "timeline" then some timeMeta1 else none
  type_map := fun _ => none
  ner_entities := fun _ => none
  rag_chain := some chain1

/-- Snapshot whose lore corpus has 2 vectors but 1 metadata record. -/
def botMism : BotState where
  encode := fun _ => []
  nlp := none
  indexes := fun n => if n = "lore" then some mismIdx else none
  metadata := fun n => if n = "lore" then some loreMeta1 else none
  type_map := fun _ => none
  ner_entities := fun _ => none
  rag_chain := some chain1

/-- Snapshot where every load failed. -/
def botEmpty : BotState where
  encode := fun _ => []
  nlp := none
  indexes := fun _ => none
  metadata := fun _ => none
  type_map := fun _ => none
  ner_entities := fun _ => none
  rag_chain := none

/-! ## String lemmas -/

theorem startsW_iff (p s : List Char) : startsW p s = true ↔ ∃ t, s = p ++ t := by
  induction p generalizing s with
  | nil => simp [startsW]
  | cons a ps ih =>
    cases s with
    | nil => simp [startsW]
    | cons c cs =>
      simp only [startsW, Bool.and_eq_true, beq_iff_eq, ih, List.cons_append,
        List.cons.injEq]
      constructor
      · rintro ⟨rfl, t, rfl⟩
        exact ⟨t, rfl, rfl⟩
      · rintro ⟨t, rfl, rfl⟩
        exact ⟨rfl, t, rfl⟩

theorem containsSub_iff (p s : List Char) : containsSub p s = true ↔ SubOf p s := by
  induction s with
  | nil =>
    rw [containsSub, startsW_iff]
    constructor
    · rintro ⟨t, ht⟩
      exact ⟨[], t, by simpa using ht⟩
    · rintro ⟨pre, post, h⟩
      have h' : pre ++ p ++ post = [] := h.symm
      rcases List.append_eq_nil.mp h' with ⟨h1, h2⟩
      rcases List.append_eq_nil.mp h1 with ⟨h3, h4⟩
      exact ⟨[], by simp [h4]⟩
  | cons c t ih =>
    rw [containsSub, Bool.or_eq_true, startsW_iff, ih]
    constructor
    · rintro (⟨u, hu⟩ | ⟨pre, post, hp⟩)
      · exact ⟨[], u, by simpa using hu⟩
      · exact ⟨c :: pre, post, by simp [hp]⟩
    · rintro ⟨pre, post, h⟩
      cases pre with
      | nil => exact Or.inl ⟨post, by simpa using h⟩
      | cons d pre' =>
        rw [List.cons_append, List.cons_append, List.cons.injEq] at h
        exact Or.inr ⟨pre', post, h.2⟩

theorem anyKeyword_iff (q : String) (ws : List String) :
    (ws.any fun w => containsSub w.toList (lower q).toList) = true ↔ hasKeyword q ws := by
  rw [List.any_eq_true]
  constructor
  · rintro ⟨w, hw, hc⟩
    exact ⟨w, hw, (containsSub_iff _ _).mp hc⟩
  · rintro ⟨w, hw, hs⟩
    exact ⟨w, hw, (containsSub_iff _ _).mpr hs⟩

theorem classify_intent_eq (q : String) :
    classify_intent q =
      if ["when", "year", "timeline"].any (fun w => containsSub w.toList (lower q).toList) then
        "timeline"
      else if ["who", "person"].any (fun w => containsSub w.toList (lower q).toList) then
        "person"
      else if ["where", "location"].any (fun w => containsSub w.toList (lower q).toList) then
        "location"
      else
        "general" := rfl

/-! ## Lemmas about the candidate-collection loop and the sort -/

theorem except_bind_ok {ε α β : Type} (a : α) (f : α → Except ε β) :
    (Except.ok a : Except ε α).bind f = f a := rfl

theorem except_bind_error {ε α β : Type} (e : ε) (f : α → Except ε β) :
    (Except.error e : Except ε α).bind f = .error e := rfl

theorem except_map_ok {ε α β : Type} (a : α) (f : α → β) :
    (Except.ok a : Except ε α).map f = .ok (f a) := rfl

theorem except_map_error {ε α β : Type} (e : ε) (f : α → β) :
    (Except.error e : Except ε α).map f = .error e := rfl

theorem lookupMeta_some (m : Meta) : lookupMeta (some m) = .ok m := rfl

theorem lookupMeta_none : lookupMeta none = .error "KeyError" := rfl

theorem getDoc_some {meta : Meta} {i : Int} {d : Doc}
    (h : pyIndex meta.documents i = some d) : getDoc meta i = .ok d := by
  simp only [getDoc]
  rw [h]

theorem getDoc_none {meta : Meta} {i : Int}
    (h : pyIndex meta.documents i = none) : getDoc meta i = .error "IndexError" := by
  simp only [getDoc]
  rw [h]

theorem collectResults_cons (mo : Option Meta) (p : ℚ × Int) (rest : List (ℚ × Int)) :
    collectResults mo (p :: rest) =
      if p.2 = -1 then collectResults mo rest
      else
        (lookupMeta mo).bind fun meta =>
          (getDoc meta p.2).bind fun doc =>
            (collectResults mo rest).map fun tail =>
              { page_content := doc.summary, title := doc.title, score := p.1 } :: tail := rfl

theorem search_and_rank_of_unavailable (s : BotState) (q n : String)
    (h : s.indexes n = none) : search_and_rank s q n = .ok [] := by
  simp only [search_and_rank]
  rw [h]

theorem search_and_rank_of_index (s : BotState) (q n : String) (index : FaissIndex)
    (h : s.indexes n = some index) :
    search_and_rank s q n =
      (collectResults (s.metadata n) (index.search (s.encode q) TOP_K_RETRIEVAL)).map
        fun results => (pySortByScore results).take 4 := by
  simp only [search_and_rank]
  rw [h]

theorem collectResults_length (mo : Option Meta) :
    ∀ (rows : List (ℚ × Int)) (cs : List RankedDoc),
      collectResults mo rows = .ok cs → cs.length ≤ rows.length := by
  intro rows
  induction rows with
  | nil =>
    intro cs h
    obtain rfl : ([] : List RankedDoc) = cs := Except.ok.inj h
    simp
  | cons p rest ih =>
    intro cs h
    by_cases hidx : p.2 = -1
    · rw [collectResults_cons, if_pos hidx] at h
      exact Nat.le_succ_of_le (ih cs h)
    · rw [collectResults_cons, if_neg hidx] at h
      cases mo with
      | none =>
        rw [lookupMeta_none, except_bind_error] at h
        exact Except.noConfusion h
      | some meta =>
        simp only [lookupMeta_some, except_bind_ok] at h
        cases hp : pyIndex meta.documents p.2 with
        | none =>
          rw [getDoc_none hp, except_bind_error] at h
          exact Except.noConfusion h
        | some doc =>
          simp only [getDoc_some hp, except_bind_ok] at h
          cases hr : collectResults (some meta) rest with
          | error e =>
            rw [hr, except_map_error] at h
            exact Except.noConfusion h
          | ok tail =>
            rw [hr, except_map_ok] at h
            obtain rfl := Except.ok.inj h
            simpa using Nat.succ_le_succ (ih tail hr)

theorem collectResults_skips_sentinel (mo : Option Meta) (d : ℚ) (rest : List (ℚ × Int)) :
    collectResults mo ((d, -1) :: rest) = collectResults mo rest := by
  simp [collectResults_cons]

theorem collectResults_all_sentinel (mo : Option Meta) :
    ∀ rows : List (ℚ × Int), (rows.all fun p => decide (p.2 = -1)) = true →
      collectResults mo rows = .ok [] := by
  intro rows
  induction rows with
  | nil => intro _; rfl
  | cons p rest ih =>
    intro h
    rw [List.all_cons, Bool.and_eq_true, decide_eq_true_eq] at h
    obtain ⟨h1, h2⟩ := h
    rw [collectResults_cons, if_pos h1]
    exact ih h2

theorem getD_of_lt (l : List α) (n : Nat) (d : α) (h : n < l.length) :
    l.getD n d = l.get ⟨n, h⟩ := by
  simp [List.getD_eq_getElem?_getD, List.getElem?_eq_getElem h, List.get_eq_getElem]

theorem pyIndex_of_nonneg (l : List α) (i : Int) (h0 : 0 ≤ i) (hlt : i.toNat < l.length) :
    pyIndex l i = some (l.get ⟨i.toNat, hlt⟩) := by
  have hneg : ¬ i < 0 := not_lt.mpr h0
  simp [pyIndex, hneg, h0, hlt]

theorem collectResults_complete (meta : Meta) :
    ∀ (rows : List (ℚ × Int)) (l : List Int),
      validSlots rows = l →
      (∀ j ∈ l, 0 ≤ j ∧ j.toNat < meta.documents.length) →
      ∃ cs, collectResults (some meta) rows = .ok cs ∧
        cs.map (fun c => (c.title, c.page_content)) =
          l.map (fun j => ((meta.documents.getD j.toNat ⟨"", ""⟩).title,
            (meta.documents.getD j.toNat ⟨"", ""⟩).summary)) := by
  intro rows
  induction rows with
  | nil =>
    intro l hl _
    refine ⟨[], rfl, ?_⟩
    rw [← hl]
    rfl
  | cons p rest ih =>
    intro l hl hb
    by_cases hidx : p.2 = -1
    · have hv : validSlots (p :: rest) = validSlots rest := by
        simp [validSlots, hidx]
      rw [hv] at hl
      obtain ⟨cs, hok, hmap⟩ := ih l hl hb
      refine ⟨cs, ?_, hmap⟩
      rw [collectResults_cons, if_pos hidx]
      exact hok
    · have hv : validSlots (p :: rest) = p.2 :: validSlots rest := by
        simp [validSlots, hidx]
      rw [hv] at hl
      subst hl
      have h0 := (hb p.2 (by simp)).1
      have hlt := (hb p.2 (by simp)).2
      obtain ⟨cs, hok, hmap⟩ :=
        ih (validSlots rest) rfl (fun j hj => hb j (by simp [hj]))
      refine ⟨{ page_content := (meta.documents.get ⟨p.2.toNat, hlt⟩).summary,
                title := (meta.documents.get ⟨p.2.toNat, hlt⟩).title,
                score := p.1 } :: cs, ?_, ?_⟩
      · rw [collectResults_cons, if_neg hidx]
        simp only [lookupMeta_some, except_bind_ok,
          getDoc_some (pyIndex_of_nonneg meta.documents p.2 h0 hlt), hok, except_map_ok]
      · rw [List.map_cons, List.map_cons, hmap, getD_of_lt meta.documents p.2.toNat _ hlt]

theorem map_getD_range (l : List α) (d : α) :
    (List.range l.length).map (fun i => l.getD i d) = l := by
  induction l with
  | nil => rfl
  | cons a t ih =>
    rw [List.length_cons, List.range_succ_eq_map, List.map_cons, List.map_map]
    simp only [List.getD_cons_zero, Function.comp_def, Nat.succ_eq_add_one,
      List.getD_cons_succ]
    rw [ih]

theorem orderedInsert_filter_score (a : RankedDoc) (l : List RankedDoc) (x : ℚ) :
    (List.orderedInsert scoreLE a l).filter (fun c => decide (c.score = x)) =
      if a.score = x then a :: l.filter (fun c => decide (c.score = x))
      else l.filter (fun c => decide (c.score = x)) := by
  induction l with
  | nil => by_cases hx : a.score = x <;> simp [List.orderedInsert, hx]
  | cons b t ih =>
    rw [List.orderedInsert]
    by_cases hab : scoreLE a b
    · rw [if_pos hab]
      by_cases hx : a.score = x <;> simp [List.filter_cons, hx]
    · rw [if_neg hab]
      have hba : b.score < a.score := not_le.mp hab
      by_cases hx : a.score = x
      · have hbx : ¬ b.score = x := fun h => absurd (h.trans hx.symm) (ne_of_lt hba)
        simp [List.filter_cons, hbx, ih, hx]
      · by_cases hbx : b.score = x <;> simp [List.filter_cons, hbx, ih, hx]

theorem pySortByScore_filter (l : List RankedDoc) (x : ℚ) :
    (pySortByScore l).filter (fun c => decide (c.score = x)) =
      l.filter (fun c => decide (c.score = x)) := by
  induction l with
  | nil => rfl
  | cons a t ih =>
    rw [pySortByScore, List.insertionSort, orderedInsert_filter_score]
    have iht : (List.insertionSort scoreLE t).filter (fun c => decide (c.score = x)) =
        t.filter (fun c => decide (c.score = x)) := ih
    by_cases hx : a.score = x
    · rw [if_pos hx, iht]
      simp [List.filter_cons, hx]
    · rw [if_neg hx, iht]
      simp [List.filter_cons, hx]

/-! ## Claim theorems -/

/-- C3: intent classification lowercases the query and returns `"timeline"`
iff a timeline keyword occurs as a substring, else `"person"` on a person
keyword, else `"location"` on a location keyword, else `"general"`, with that
fixed precedence; it is total (never throws), and the empty string is
classified `"general"`. -/
theorem c3_classify_intent_contract (q : String) :
    (classify_intent q = "timeline" ↔ hasKeyword q ["when", "year", "timeline"])
    ∧ (classify_intent q = "person" ↔
        (¬ hasKeyword q ["when", "year", "timeline"] ∧ hasKeyword q ["who", "person"]))
    ∧ (classify_intent q = "location" ↔
        (¬ hasKeyword q ["when", "year", "timeline"] ∧ ¬ hasKeyword q ["who", "person"]
          ∧ hasKeyword q ["where", "location"]))
    ∧ (classify_intent q = "general" ↔
        (¬ hasKeyword q ["when", "year", "timeline"] ∧ ¬ hasKeyword q ["who", "person"]
          ∧ ¬ hasKeyword q ["where", "location"]))
    ∧ classify_intent "" = "general" := by
  have hT := anyKeyword_iff q ["when", "year", "timeline"]
  have hP := anyKeyword_iff q ["who", "person"]
  have hL := anyKeyword_iff q ["where", "location"]
  refine ⟨?_, ?_, ?_, ?_, by decide⟩ <;>
      rw [classify_intent_eq q] <;> split_ifs with h1 h2 h3
  · exact iff_of_true rfl (hT.mp h1)
  · exact iff_of_false (by decide) fun htl => h1 (hT.mpr htl)
  · exact iff_of_false (by decide) fun htl => h1 (hT.mpr htl)
  · exact iff_of_false (by decide) fun htl => h1 (hT.mpr htl)
  · exact iff_of_false (by decide) fun h => h.1 (hT.mp h1)
  · exact iff_of_true rfl ⟨fun htl => h1 (hT.mpr htl), hP.mp h2⟩
  · exact iff_of_false (by decide) fun h => h2 (hP.mpr h.2)
  · exact iff_of_false (by decide) fun h => h2 (hP.mpr h.2)
  · exact iff_of_false (by decide) fun h => h.1 (hT.mp h1)
  · exact iff_of_false (by decide) fun h => h.2.1 (hP.mp h2)
  · exact iff_of_true rfl ⟨fun htl => h1 (hT.mpr htl), fun hpr => h2 (hP.mpr hpr), hL.mp h3⟩
  · exact iff_of_false (by decide) fun h => h3 (hL.mpr h.2.2)
  · exact iff_of_false (by decide) fun h => h.1 (hT.mp h1)
  · exact iff_of_false (by decide) fun h => h.2.1 (hP.mp h2)
  · exact iff_of_false (by decide) fun h => h.2.2 (hL.mp h3)
  · exact iff_of_true rfl
      ⟨fun htl => h1 (hT.mpr htl), fun hpr => h2 (hP.mpr hpr), fun hlo => h3 (hL.mpr hlo)⟩

/-- C9: keyword matching is raw substring containment on the lowercased
query, not whole-word matching: `"whenever"` (contains `"when"`) is
classified timeline, `"whole"` (contains `"who"`) person, `"nowhere"`
(contains `"where"`) location, and a higher-precedence keyword occurring in
the same query wins. -/
theorem c9_substring_not_whole_word :
    classify_intent "whenever" = "timeline"
    ∧ classify_intent "whole" = "person"
    ∧ classify_intent "nowhere" = "location"
    ∧ classify_intent "nowhere whenever" = "timeline" := by decide

/-- C1 (code-bug evidence): the boost fusion is not applied by the code.  For
the query "Who is Johnny Silverhand?" against `bot1`, the intent is person,
the query entity set and the stored entity set share "johnny silverhand"
(overlap 1) and the type map tags the document "character" (type match), so
the claimed formula yields 1/2 − 1/5 − 1/20 = 1/4; but `search_and_rank`
returns the candidate with score exactly the raw distance 1/2 — `BOOST_VALUE`,
`NER_BOOST_PER_MATCH`, `type_map` and `ner_entities` are never consulted. -/
theorem c1_boost_fusion_not_applied :
    classify_intent "Who is Johnny Silverhand?" = "person"
    ∧ extract_query_entities bot1.nlp "Who is Johnny Silverhand?" = {"johnny silverhand"}
    ∧ bot1.type_map "Johnny Silverhand" = some "character"
    ∧ bot1.ner_entities "Johnny Silverhand" = some ["johnny silverhand"]
    ∧ search_and_rank bot1 "Who is Johnny Silverhand?" "lore" = .ok [rd1]
    ∧ rd1.score = 1/2
    ∧ specFinalScore rd1.score true 1 = 1/4
    ∧ rd1.score ≠ specFinalScore rd1.score true 1 := by
  refine ⟨by decide, by decide, rfl, rfl, rfl, rfl, ?_, ?_⟩
  · norm_num [rd1, specFinalScore, BOOST_VALUE, NER_BOOST_PER_MATCH]
  · norm_num [rd1, specFinalScore, BOOST_VALUE, NER_BOOST_PER_MATCH]

/-- C2 (code-bug evidence): for the timeline query the classifier does return
"timeline" and the timeline corpus of `bot2` holds its own document, but
`ask_rag` hardcodes the "lore" corpus: the surfaced source is the lore
document, and the timeline document's title never appears in the sources. -/
theorem c2_timeline_intent_still_queries_lore :
    classify_intent "When did the Fourth Corporate War start?" = "timeline"
    ∧ ask_rag bot2 "When did the Fourth Corporate War start?"
        = .ok (.stream [], ["Johnny Silverhand"])
    ∧ search_and_rank bot2 "When did the Fourth Corporate War start?" "timeline"
        = .ok [{ page_content := "Began in 2021.", title := "Fourth Corporate War",
                 score := 3/10 }]
    ∧ "Fourth Corporate War" ∉ (["Johnny Silverhand"] : List String) :=
  ⟨by decide, by decide, rfl, by decide⟩

/-- C4 counterexample: a successful `faiss.read_index` followed by a failing
metadata load leaves the corpus with an index and no records (one half of the
pair present without the other), and a 2-vector index loads happily next to a
1-record store — the mismatch is not rejected at load but surfaces as an
IndexError at query time. -/
theorem c4_half_loaded_pair_counterexample :
    loadCorpus (some loreIdx1) none = (some loreIdx1, none)
    ∧ (loadCorpus (some loreIdx1) none).1.isSome = true
    ∧ (loadCorpus (some loreIdx1) none).2 = none
    ∧ loadCorpus (some mismIdx) (some loreMeta1) = (some mismIdx, some loreMeta1)
    ∧ search_and_rank botMism "q" "lore" = .error "IndexError" :=
  ⟨rfl, rfl, rfl, rfl, by decide⟩

/-- C4 amended: per-corpus load failures are silently swallowed; records can
only be present when the index is (the index is installed first), a failing
index read installs neither half, but a successful index read installs the
index regardless of whether the metadata load succeeds — so the index half
can be present alone, and no records/vectors length check is performed at
load. -/
theorem c4_load_semantics_amended (ri : Option FaissIndex) (lm : Option Meta) :
    ((loadCorpus ri lm).2.isSome = true → (loadCorpus ri lm).1.isSome = true)
    ∧ (ri = none → loadCorpus ri lm = (none, none))
    ∧ (∀ i, ri = some i → loadCorpus ri lm = (some i, lm)) := by
  refine ⟨?_, ?_, ?_⟩
  · cases ri with
    | none => intro h; exact absurd h (by simp [loadCorpus])
    | some i => intro _; rfl
  · rintro rfl; rfl
  · rintro i rfl; rfl

theorem c4_load_semantics_amended_witness :
    (loadCorpus (some loreIdx1) (some loreMeta1)).1.isSome = true
    ∧ loadCorpus none (some loreMeta1) = (none, none)
    ∧ loadCorpus (some loreIdx1) none = (some loreIdx1, none) :=
  ⟨(c4_load_semantics_amended (some loreIdx1) (some loreMeta1)).1 rfl,
   (c4_load_semantics_amended none (some loreMeta1)).2.1 rfl,
   (c4_load_semantics_amended (some loreIdx1) none).2.2 loreIdx1 rfl⟩

/-- C5: for an available corpus the candidate-collection step returns at most
`TOP_K_RETRIEVAL = 7` candidates (FAISS returns exactly 7 slots per row);
sentinel `-1` slots are skipped silently rather than erroring; a row of
sentinels only (e.g. an empty corpus) collects to `.ok []` without error; and
when the valid slots enumerate every document of a smaller-than-`k` corpus,
every document is returned, again without error. -/
theorem c5_vector_search_contract (s : BotState) (q n : String) (index : FaissIndex)
    (hI : s.indexes n = some index) :
    search_and_rank s q n
      = (collectResults (s.metadata n) (index.search (s.encode q) TOP_K_RETRIEVAL)).map
          (fun results => (pySortByScore results).take 4)
    ∧ (∀ cs, collectResults (s.metadata n) (index.search (s.encode q) TOP_K_RETRIEVAL) = .ok cs →
      cs.length ≤ TOP_K_RETRIEVAL)
    ∧ (∀ (mo : Option Meta) (d : ℚ) (rest : List (ℚ × Int)),
        collectResults mo ((d, -1) :: rest) = collectResults mo rest)
    ∧ (∀ (mo : Option Meta) (rows : List (ℚ × Int)),
        (rows.all fun p => decide (p.2 = -1)) = true → collectResults mo rows = .ok [])
    ∧ (∀ meta, s.metadata n = some meta →
        validSlots (index.search (s.encode q) TOP_K_RETRIEVAL)
          = (List.range meta.documents.length).map Int.ofNat →
        ∃ cs, collectResults (s.metadata n) (index.search (s.encode q) TOP_K_RETRIEVAL) = .ok cs
          ∧ cs.map (fun c => (c.title, c.page_content))
              = meta.documents.map (fun d => (d.title, d.summary))) := by
  refine ⟨search_and_rank_of_index s q n index hI, ?_,
    collectResults_skips_sentinel, collectResults_all_sentinel, ?_⟩
  · intro cs h
    have hlen := collectResults_length (s.metadata n) _ cs h
    rwa [index.search_length] at hlen
  · intro meta hm hv
    have hb : ∀ j ∈ (List.range meta.documents.length).map Int.ofNat,
        0 ≤ j ∧ j.toNat < meta.documents.length := by
      intro j hj
      rw [List.mem_map] at hj
      obtain ⟨i, hi, rfl⟩ := hj
      have hi' : i < meta.documents.length := List.mem_range.mp hi
      exact ⟨Int.ofNat_nonneg i, hi'⟩
    obtain ⟨cs, hok, hmap⟩ :=
      collectResults_complete meta (index.search (s.encode q) TOP_K_RETRIEVAL) _ rfl
        (fun j hj => hb j (hv ▸ hj))
    rw [hm]
    refine ⟨cs, hok, ?_⟩
    rw [hmap, hv, List.map_map]
    have hcomp : ((fun j : Int => ((meta.documents.getD j.toNat ⟨"", ""⟩).title,
          (meta.documents.getD j.toNat ⟨"", ""⟩).summary)) ∘ Int.ofNat)
        = ((fun d : Doc => (d.title, d.summary)) ∘ fun i : Nat =>
            meta.documents.getD i ⟨"", ""⟩) := by
      funext i
      rfl
    rw [hcomp, ← List.map_map, map_getD_range]

theorem c5_vector_search_contract_witness :
    bot1.indexes "lore" = some loreIdx1
    ∧ bot1.metadata "lore" = some loreMeta1
    ∧ (∃ cs, collectResults (bot1.metadata "lore")
          (loreIdx1.search (bot1.encode "q") TOP_K_RETRIEVAL) = .ok cs
        ∧ cs.map (fun c => (c.title, c.page_content))
            = loreMeta1.documents.map (fun d => (d.title, d.summary))) :=
  ⟨rfl, rfl,
   (c5_vector_search_contract bot1 "q" "lore" loreIdx1 rfl).2.2.2.2 loreMeta1 rfl (by decide)⟩

/-- C6: every result list of `search_and_rank` has length at most 4 and is
ascending in score; the sort is stable (elements of any fixed score appear in
the output in their original candidate order — the filter characterization of
stability); and `ask_rag` hands the ranked documents to the chain and lists
their titles in exactly the ranked order, carrying only title, summary
(`page_content`) and score. -/
theorem c6_ranking_sorted_truncated_stable (s : BotState) (q n : String)
    (cs ds : List RankedDoc) (ch : Chain)
    (h : search_and_rank s q n = .ok cs)
    (h2 : search_and_rank s q "lore" = .ok ds) (h3 : ds ≠ [])
    (h4 : s.rag_chain = some ch) :
    cs.length ≤ 4
    ∧ cs.Pairwise scoreLE
    ∧ (∀ (l : List RankedDoc) (x : ℚ),
        (pySortByScore l).filter (fun c => decide (c.score = x))
          = l.filter (fun c => decide (c.score = x)))
    ∧ ask_rag s q = .ok (.stream (ch.stream ds q), ds.map (fun d => d.title)) := by
  have hmain : cs.length ≤ 4 ∧ cs.Pairwise scoreLE := by
    cases hIdx : s.indexes n with
    | none =>
      rw [search_and_rank_of_unavailable s q n hIdx] at h
      obtain rfl := Except.ok.inj h
      exact ⟨by simp, List.Pairwise.nil⟩
    | some index =>
      rw [search_and_rank_of_index s q n index hIdx] at h
      cases hc : collectResults (s.metadata n) (index.search (s.encode q) TOP_K_RETRIEVAL) with
      | error e =>
        rw [hc, except_map_error] at h
        exact Except.noConfusion h
      | ok results =>
        rw [hc, except_map_ok] at h
        obtain rfl := Except.ok.inj h
        constructor
        · simp
        · exact List.Pairwise.sublist (List.take_sublist 4 _)
            (List.sorted_insertionSort scoreLE results)
  have hempty : ds.isEmpty = false := by
    cases ds with
    | nil => exact absurd rfl h3
    | cons a t => rfl
  refine ⟨hmain.1, hmain.2, pySortByScore_filter, ?_⟩
  simp only [ask_rag, h2, except_bind_ok, hempty, h4]
  simp

theorem c6_ranking_sorted_truncated_stable_witness :
    search_and_rank bot1 "q" "lore" = .ok [rd1]
    ∧ ([rd1] : List RankedDoc).length ≤ 4
    ∧ ([rd1] : List RankedDoc).Pairwise scoreLE
    ∧ ask_rag bot1 "q"
        = .ok (.stream (chain1.stream [rd1] "q"), [rd1].map (fun d => d.title)) := by
  have h := c6_ranking_sorted_truncated_stable bot1 "q" "lore" [rd1] [rd1] chain1
    rfl rfl (by decide) rfl
  exact ⟨rfl, h.1, h.2.1, h.2.2.2⟩

/-- C7: an unavailable corpus (absent index key) makes `search_and_rank`
return `.ok []` without raising, and an empty candidate list makes `ask_rag`
return the canned fallback with an empty source list — a first-class non-error
outcome, produced before `rag_chain` is ever touched. -/
theorem c7_unavailable_or_empty_is_non_error (s : BotState) (q n : String)
    (h : s.indexes n = none) :
    search_and_rank s q n = .ok []
    ∧ (s.indexes "lore" = none →
        ask_rag s q = .ok (.fallback "Got nothing on that, choomba.", []))
    ∧ (∀ (s₂ : BotState) (q₂ : String), search_and_rank s₂ q₂ "lore" = .ok [] →
        ask_rag s₂ q₂ = .ok (.fallback "Got nothing on that, choomba.", [])) := by
  have key : ∀ (s₂ : BotState) (q₂ : String), search_and_rank s₂ q₂ "lore" = .ok [] →
      ask_rag s₂ q₂ = .ok (.fallback "Got nothing on that, choomba.", []) := by
    intro s₂ q₂ hsr
    simp [ask_rag, hsr, except_bind_ok]
  exact ⟨search_and_rank_of_unavailable s q n h,
    fun hl => key s q (search_and_rank_of_unavailable s q "lore" hl), key⟩

theorem c7_unavailable_or_empty_is_non_error_witness :
    botEmpty.indexes "lore" = none
    ∧ search_and_rank botEmpty "q" "lore" = .ok []
    ∧ ask_rag botEmpty "q" = .ok (.fallback "Got nothing on that, choomba.", []) :=
  ⟨rfl, (c7_unavailable_or_empty_is_non_error botEmpty "q" "lore" rfl).1,
   (c7_unavailable_or_empty_is_non_error botEmpty "q" "lore" rfl).2.1 rfl⟩

/-- C8: the pipeline is a deterministic function of the loaded snapshot with
no cross-query state: two bot states agreeing on the components the query
path reads (encoder, indexes, metadata, chain) produce identical results for
every query, and re-running either stateful entry point from the state it
returns reproduces the same result-state pair (the state is unchanged). -/
theorem c8_pipeline_deterministic (s₁ s₂ : BotState) (q n : String)
    (hE : s₁.encode = s₂.encode) (hI : s₁.indexes = s₂.indexes)
    (hM : s₁.metadata = s₂.metadata) (hC : s₁.rag_chain = s₂.rag_chain) :
    search_and_rank s₁ q n = search_and_rank s₂ q n
    ∧ ask_rag s₁ q = ask_rag s₂ q
    ∧ search_and_rankS q n ((search_and_rankS q n s₁).2) = search_and_rankS q n s₁
    ∧ ask_ragS q ((ask_ragS q s₁).2) = ask_ragS q s₁ := by
  have hsr : ∀ m, search_and_rank s₁ q m = search_and_rank s₂ q m := by
    intro m
    simp only [search_and_rank, hE, hI, hM]
  refine ⟨hsr n, ?_, rfl, rfl⟩
  simp only [ask_rag, hsr "lore", hC]

theorem c8_pipeline_deterministic_witness :
    ask_rag bot1 "Who is Johnny Silverhand?" = ask_rag bot1b "Who is Johnny Silverhand?"
    ∧ search_and_rankS "q" "lore" ((search_and_rankS "q" "lore" bot1).2)
        = search_and_rankS "q" "lore" bot1 :=
  ⟨(c8_pipeline_deterministic bot1 bot1b "Who is Johnny Silverhand?" "lore"
      rfl rfl rfl rfl).2.1,
   (c8_pipeline_deterministic bot1 bot1b "q" "lore" rfl rfl rfl rfl).2.2.1⟩

/-- C10: when the spaCy model failed to load at construction time
(`self.nlp is None`), `extract_query_entities` returns the empty set for
every query instead of raising. -/
theorem c10_extract_entities_degrades_to_empty (s : BotState) (h : s.nlp = none)
    (q : String) : extract_query_entities s.nlp q = ∅ := by
  rw [h]
  rfl

theorem c10_extract_entities_degrades_to_empty_witness :
    extract_query_entities botEmpty.nlp "Who is V?" = ∅ :=
  c10_extract_entities_degrades_to_empty botEmpty rfl "Who is V?"

end SearchBot
